import Mathlib

/-!
Verification development for `landscape/package/store.py` (and the spec of the
task-handler drain loop whose implementation lives in
`landscape/package/taskhandler.py`, not included in the sources).

The SQLite-backed store is shallowly embedded: each table is a Lean list of
rows kept in rowid (insertion) order, each `cursor.execute` statement is
translated to the corresponding pure list operation, and the transactional
`with_cursor` decorator is modelled explicitly where a claim is about it.
-/

set_option autoImplicit false

namespace Landscape

/-- A row of the `hash` table: `CREATE TABLE hash (id INTEGER PRIMARY KEY,
hash BLOB UNIQUE)` (store.py 376-377).  `id` is the INTEGER PRIMARY KEY and
therefore the rowid; `hash` carries a UNIQUE constraint.  Hashes are modelled
as `String` (Python byte strings), ids as `Nat`. -/
structure HashRow where
  id : Nat
  hash : String
deriving DecidableEq, Repr

/-- A row of the `task` table: `CREATE TABLE task (id INTEGER PRIMARY KEY,
queue TEXT, timestamp TIMESTAMP, data BLOB)` (store.py 409-411).  The payload
`data` is stored bpickle-serialized; since bpickle round-trips values exactly,
the payload is modelled directly (tests use small integers). -/
structure TaskRow where
  id : Nat
  queue : String
  timestamp : Nat
  data : Nat
deriving DecidableEq, Repr

/-- A row of the `hash_id_request` table (store.py 406-408); only the rowid
matters for the claims below. -/
structure RequestRow where
  id : Nat
deriving DecidableEq, Repr

namespace HashIdStore

/-- `REPLACE INTO hash VALUES (id, hash)` (store.py 67-68): the REPLACE
conflict algorithm first deletes every row that would violate the INTEGER
PRIMARY KEY constraint on `id` or the UNIQUE constraint on `hash`, then
inserts the new row (at the end, since its rowid `id` is fresh in the table;
the scan position of a row never matters for the unique-key lookups below). -/
def replaceHash (t : List HashRow) (i : Nat) (h : String) : List HashRow :=
  t.filter (fun r => !(r.id == i) && !(r.hash == h)) ++ [⟨i, h⟩]

/-- `HashIdStore.set_hash_ids` (store.py 60-68): one REPLACE per dict entry,
in dict iteration order (the `pairs` list, whose first components — the dict
keys — are distinct). -/
def set_hash_ids (t : List HashRow) (pairs : List (String × Nat)) :
    List HashRow :=
  pairs.foldl (fun acc p => replaceHash acc p.2 p.1) t

/-- `HashIdStore.get_hash_id` (store.py 70-77): `SELECT id FROM hash WHERE
hash=?`, `fetchone`, returning the id or None. -/
def get_hash_id (t : List HashRow) (h : String) : Option Nat :=
  (t.find? (fun r => r.hash == h)).map (fun r => r.id)

/-- `HashIdStore.get_id_hash` (store.py 85-93): `SELECT hash FROM hash WHERE
id=?`, `fetchone`, returning the hash or None. -/
def get_id_hash (t : List HashRow) (i : Nat) : Option String :=
  (t.find? (fun r => r.id == i)).map (fun r => r.hash)

/-- `HashIdStore.clear_hash_ids` (store.py 95-98): `DELETE FROM hash`. -/
def clear_hash_ids (_t : List HashRow) : List HashRow :=
  []

end HashIdStore

/-- State of the `hash` table of a file opened as a `HashIdStore`:
either the file has no table called "hash", or it has one with the expected
`(id, hash)` schema holding some rows, or it has one with an incompatible
schema (e.g. no `id` column). -/
inductive HashTableState where
  | absent
  | compatible (rows : List HashRow)
  | incompatible
deriving DecidableEq, Repr

/-- An on-disk file presented as a hash=>id database.  `wellformed` says
whether the bytes parse as a SQLite database at all (`False` for the "junk"
file of `test_use_hash_id_with_invalid_database`); `hashTable` describes its
"hash" table. -/
structure DbFile where
  wellformed : Bool
  hashTable : HashTableState
deriving DecidableEq, Repr

/-- `ensure_hash_id_schema` (store.py 369-383), run by `HashIdStore.__init__`
(store.py 52-58): `CREATE TABLE hash (id INTEGER PRIMARY KEY, hash BLOB
UNIQUE)`.  On a wellformed database without a "hash" table the CREATE
succeeds and is committed; if the table already exists the CREATE raises
`OperationalError`, and on a non-database file it raises `DatabaseError` —
both are caught and rolled back, leaving the file unchanged. -/
def ensure_hash_id_schema (f : DbFile) : DbFile :=
  if f.wellformed then
    match f.hashTable with
    | .absent => { f with hashTable := .compatible [] }
    | _ => f
  else
    f

/-- `HashIdStore.check_sanity` (store.py 100-111): runs `SELECT id FROM hash
WHERE hash=?`.  The probe succeeds exactly on a wellformed database whose
"hash" table exists with a compatible schema; any `DatabaseError` (including
`OperationalError`, its subclass, for a missing/incompatible table) is turned
into `InvalidHashIdDb`. -/
def check_sanity (f : DbFile) : Bool :=
  f.wellformed &&
    (match f.hashTable with
     | .compatible _ => true
     | _ => false)

/-- Whether a file already is a valid hash=>id store of the expected schema,
*before* it is opened (spec §4.1 `checkIntegrity`: invalid means "wrong
format, missing table, incompatible column set"). -/
def isValidHashIdDbFile (f : DbFile) : Bool :=
  check_sanity f

/-- The rows served by an opened `HashIdStore` for file `f`. -/
def DbFile.rows (f : DbFile) : List HashRow :=
  match f.hashTable with
  | .compatible rows => rows
  | _ => []

/-- The single error raised by `PackageStore.add_hash_id_db`. -/
inductive StoreError where
  | invalidHashIdDb
deriving DecidableEq, Repr

/-- The persistent state of a `PackageStore` (store.py 114-130): the primary
`hash` table inherited from `HashIdStore`, the in-memory ordered list of
attached lookaside stores (each modelled by its rows), and the `task` and
`hash_id_request` tables.  `nextTaskId` is SQLite's next rowid for the `task`
table; task rows are kept in rowid order, as a full table scan returns them. -/
structure PackageStore where
  hashTable : List HashRow
  hashIdStores : List (List HashRow)
  tasks : List TaskRow
  nextTaskId : Nat
  hashIdRequests : List RequestRow
deriving DecidableEq, Repr

namespace PackageStore

/-- `PackageStore.add_hash_id_db` (store.py 132-155): open the file as a
`HashIdStore` (running `ensure_hash_id_schema`), run `check_sanity`, and only
on success append the store to `self._hash_id_stores`.  The result carries
the outcome, the store state after the call, and the file after the call. -/
def add_hash_id_db (db : PackageStore) (f : DbFile) :
    Except StoreError Unit × PackageStore × DbFile :=
  let f' := ensure_hash_id_schema f
  if check_sanity f' then
    (.ok (), { db with hashIdStores := db.hashIdStores ++ [f'.rows] }, f')
  else
    (.error .invalidHashIdDb, db, f')

/-- `PackageStore.has_hash_id_db` (store.py 157-159). -/
def has_hash_id_db (db : PackageStore) : Bool :=
  !db.hashIdStores.isEmpty

/-- The lookaside loop of `PackageStore.get_hash_id` (store.py 170-174):
`for store in self._hash_id_stores: id = store.get_hash_id(hash); if id:
return id`.  The Python truthiness test `if id:` skips both `None` (hash not
present) and the integer `0`. -/
def lookasideLookup : List (List HashRow) → String → Option Nat
  | [], _ => none
  | s :: rest, h =>
    match HashIdStore.get_hash_id s h with
    | some i => if i == 0 then lookasideLookup rest h else some i
    | none => lookasideLookup rest h

/-- `PackageStore.get_hash_id` (store.py 161-177): consult the lookaside
stores in attachment order, then fall back to
`HashIdStore.get_hash_id(self, hash)` on the primary table. -/
def get_hash_id (db : PackageStore) (h : String) : Option Nat :=
  match lookasideLookup db.hashIdStores h with
  | some i => some i
  | none => HashIdStore.get_hash_id db.hashTable h

/-- `PackageStore.add_task` (store.py 263-268): `INSERT INTO task (queue,
timestamp, data) VALUES (?,?,?)` with `time.time()` as timestamp (passed here
explicitly as `ts`), returning a `PackageTask` handle for the fresh rowid,
which caches queue/timestamp/data (store.py 346-362). -/
def add_task (db : PackageStore) (q : String) (ts : Nat) (d : Nat) :
    PackageStore × TaskRow :=
  let t : TaskRow := ⟨db.nextTaskId, q, ts, d⟩
  ({ db with tasks := db.tasks ++ [t], nextTaskId := db.nextTaskId + 1 }, t)

/-- One comparison step of the ORDER BY sort: keep the accumulated row unless
the newly scanned row has a strictly smaller timestamp.  SQLite's sorter is
stable with respect to scan order (sorter keys carry a sequence number /
list-merge takes the left element on ties), and the scan of the rowid table
`task` is in rowid order, so ties on `timestamp` are resolved by `id`. -/
def nextAcc (acc : Option TaskRow) (t : TaskRow) : Option TaskRow :=
  match acc with
  | none => some t
  | some a => if t.timestamp < a.timestamp then some t else some a

/-- `PackageStore.get_next_task` (store.py 270-277): `SELECT id FROM task
WHERE queue=? ORDER BY timestamp`, `fetchone`, wrapping the row into a
`PackageTask` handle (modelled by the row itself). -/
def get_next_task (db : PackageStore) (q : String) : Option TaskRow :=
  (db.tasks.filter (fun t => t.queue == q)).foldl nextAcc none

/-- `PackageStore.clear_tasks` (store.py 279-282): `DELETE FROM task WHERE id
NOT IN (...)` over the ids of `except_tasks` — note: no queue filter of any
kind appears in the statement. -/
def clear_tasks (db : PackageStore) (exceptIds : List Nat) : PackageStore :=
  { db with tasks := db.tasks.filter (fun t => exceptIds.contains t.id) }

/-- `PackageTask.remove` (store.py 364-366): `DELETE FROM task WHERE id=?`. -/
def remove (db : PackageStore) (tid : Nat) : PackageStore :=
  { db with tasks := db.tasks.filter (fun t => !(t.id == tid)) }

/-- The Python exception raised when a statement is executed on a closed
cursor. -/
inductive PyErr where
  | programmingError
deriving DecidableEq, Repr

/-- The state of a sqlite3 cursor as seen from code that runs against it. -/
structure Cursor where
  closed : Bool
deriving DecidableEq, Repr

/-- The generator body of `PackageStore.iter_hash_id_requests` (store.py
254-257): execute `SELECT id FROM hash_id_request` on the given cursor and
yield one `HashIDRequest` handle (modelled by its id) per row.  In Python,
none of this body runs until the returned generator is first consumed; if by
then the cursor has been closed, `cursor.execute` raises
`sqlite3.ProgrammingError` ("Cannot operate on a closed cursor"). -/
def iterHashIdRequestsBody (db : PackageStore) (c : Cursor) :
    Except PyErr (List Nat) :=
  if c.closed then
    .error .programmingError
  else
    .ok (db.hashIdRequests.map (fun r => r.id))

/-- `with_cursor` (store.py 20-42) applied to the *generator function*
`iter_hash_id_requests` (store.py 253-257): inside the wrapper,
`method(self, cursor)` merely constructs the generator object without running
any of its body; the `finally` clause then closes the cursor and
`self._db.commit()` runs, and the generator — still bound to the now-closed
cursor — is returned to the caller.  Consuming it (the `Unit` argument) runs
the body against the closed cursor. -/
def iter_hash_id_requests (db : PackageStore) :
    Unit → Except PyErr (List Nat) :=
  fun _ => iterHashIdRequestsBody db { closed := true }

end PackageStore

/-! ### The `with_cursor` transaction wrapper (store.py 20-42)

For ordinary (non-generator) methods the wrapper runs the method body, closes
the cursor, and commits; if the body (or the commit) raises, it rolls the
transaction back and re-raises.  The durable state is modelled explicitly:
the method body computes on a working copy, and only `with_cursor` decides
whether the working copy becomes the durable state (commit) or is discarded
(rollback). -/

/-- `with_cursor` (store.py 20-42) for a method returning a value of type `α`
while transforming the store state `σ`: on `ok`, commit the new state; on
`error`, roll back to the state at entry and re-raise. -/
def with_cursor {σ α ε : Type} (method : σ → Except ε (α × σ)) (db : σ) :
    Except ε α × σ :=
  match method db with
  | .ok (a, db') => (.ok a, db')
  | .error e => (.error e, db)

/-- The loop body of `HashIdStore.set_hash_ids` (store.py 60-68) with an
explicit model of statement failure: `exec h i` stands for
`cursor.execute("REPLACE INTO hash VALUES (?, ?)", (id, buffer(hash)))`,
which either applies the REPLACE to the working table or raises.  The pairs
are processed in dict iteration order. -/
def set_hash_ids_body {ε : Type} (exec : String → Nat → Except ε Unit) :
    List (String × Nat) → List HashRow → Except ε (Unit × List HashRow)
  | [], t => .ok ((), t)
  | (h, i) :: rest, t =>
    match exec h i with
    | .error e => .error e
    | .ok _ => set_hash_ids_body exec rest (HashIdStore.replaceHash t i h)

/-- `HashIdStore.set_hash_ids` as actually called: the loop body wrapped in
`with_cursor`. -/
def set_hash_ids_tx {ε : Type} (exec : String → Nat → Except ε Unit)
    (pairs : List (String × Nat)) (t : List HashRow) :
    Except ε Unit × List HashRow :=
  with_cursor (set_hash_ids_body exec pairs) t

/-! ### The task-handler drain loop

`PackageTaskHandler.handle_tasks` lives in `landscape/package/taskhandler.py`,
which is not among the sources — only its tests
(`test_taskhandler.py:test_handle_tasks`, `test_handle_tasks_hooks_errback`)
are.  The loop is therefore modelled from the spec. -/

namespace PackageStore

/-- Modelled from the spec: `PackageTaskHandler.handle_tasks`, whose
implementation (taskhandler.py) is missing from the sources.  Spec §4.4
DRAINING: "repeatedly fetch the oldest task for this handler's fixed queue
name; if none remains, transition to DONE.  Otherwise invoke the overridable
per-task operation with the task handle ... On success, remove the task and
continue to the next.  On failure, stop draining immediately (the failing
task is not removed ...) and transition to FAILED, surfacing the failure to
the run's caller; no subsequent queued tasks are attempted this run."
Returns the run's result, the store after the run, and the list of tasks for
which the per-task operation was invoked (in order).  `fuel` bounds the
recursion; every successful step removes a task, so the number of task rows
suffices (see `handle_tasks`). -/
def handleTasksFuel {ε : Type} (op : TaskRow → Except ε Unit) (q : String) :
    Nat → PackageStore → Except ε Unit × PackageStore × List TaskRow
  | 0, db => (.ok (), db, [])
  | fuel + 1, db =>
    match get_next_task db q with
    | none => (.ok (), db, [])
    | some t =>
      match op t with
      | .error e => (.error e, db, [t])
      | .ok _ =>
        let r := handleTasksFuel op q fuel (remove db t.id)
        (r.1, r.2.1, t :: r.2.2)

/-- Modelled from the spec: the drain loop run to completion (the fuel
`db.tasks.length` is enough, since each successful step deletes a task row
and the loop otherwise stops). -/
def handle_tasks {ε : Type} (op : TaskRow → Except ε Unit)
    (db : PackageStore) (q : String) :
    Except ε Unit × PackageStore × List TaskRow :=
  handleTasksFuel op q db.tasks.length db

/-- `db` drains successfully through exactly the tasks of `pre` (in order),
reaching state `db'`: each task in `pre` is the next task of queue `q` at its
turn, its operation succeeds, and it is removed. -/
def drainsTo {ε : Type} (op : TaskRow → Except ε Unit) (q : String) :
    PackageStore → List TaskRow → PackageStore → Prop
  | db, [], db' => db = db'
  | db, t :: rest, db' =>
    get_next_task db q = some t ∧ op t = .ok () ∧
      drainsTo op q (remove db t.id) rest db'

end PackageStore

/-- The FIFO order on task rows: smaller timestamp first, ties by id. -/
def taskLE (a b : TaskRow) : Prop :=
  a.timestamp < b.timestamp ∨ (a.timestamp = b.timestamp ∧ a.id ≤ b.id)

/-- A `PackageStore` with empty tables, as produced on a fresh file. -/
def emptyStore : PackageStore :=
  ⟨[], [], [], 0, []⟩

/-- The `hash` table holds the pair `(i, h)` and no other row shares its
hash or its id — the state REPLACE establishes for an inserted pair, and
what both unique-key lookups need. -/
def holdsPair (t : List HashRow) (h : String) (i : Nat) : Prop :=
  (⟨i, h⟩ : HashRow) ∈ t ∧
    ∀ r ∈ t, (r.hash = h → r = ⟨i, h⟩) ∧ (r.id = i → r = ⟨i, h⟩)

open PackageStore HashIdStore

/-! ## Helper lemmas -/

theorem lookasideLookup_all_zero (h : String) :
    ∀ stores : List (List HashRow),
      (∀ s ∈ stores,
        HashIdStore.get_hash_id s h = none ∨
          HashIdStore.get_hash_id s h = some 0) →
      lookasideLookup stores h = none := by
  intro stores
  induction stores with
  | nil => intro _; rfl
  | cons s rest ih =>
    intro hall
    rcases hall s (by simp) with hs | hs <;>
      simp [lookasideLookup, hs, ih fun s hs => hall s (by simp [hs])]

theorem taskLE_trans (a b c : TaskRow) (h1 : taskLE a b) (h2 : taskLE b c) :
    taskLE a c := by
  unfold taskLE at *
  omega

theorem filter_queue_eq_nil (q : String) (l : List TaskRow)
    (hl : ∀ t ∈ l, t.queue ≠ q) :
    l.filter (fun t => t.queue == q) = [] := by
  rw [List.filter_eq_nil_iff]
  intro t ht
  simpa using hl t ht

theorem foldl_nextAcc_mem :
    ∀ (l : List TaskRow) (a t : TaskRow),
      l.foldl nextAcc (some a) = some t → t = a ∨ t ∈ l := by
  intro l
  induction l with
  | nil =>
    intro a t h
    exact Or.inl (Option.some.inj h).symm
  | cons r rest ih =>
    intro a t h
    simp only [List.foldl_cons, nextAcc] at h
    by_cases hlt : r.timestamp < a.timestamp
    · rw [if_pos hlt] at h
      rcases ih r t h with h' | h'
      · exact Or.inr (by simp [h'])
      · exact Or.inr (by simp [h'])
    · rw [if_neg hlt] at h
      rcases ih a t h with h' | h'
      · exact Or.inl h'
      · exact Or.inr (by simp [h'])

theorem foldl_nextAcc_min :
    ∀ (l : List TaskRow) (a : TaskRow),
      (∀ r ∈ l, a.id < r.id) →
      l.Pairwise (fun x y => x.id < y.id) →
      ∃ t, l.foldl nextAcc (some a) = some t ∧ taskLE t a ∧
        ∀ r ∈ l, taskLE t r := by
  intro l
  induction l with
  | nil =>
    intro a _ _
    exact ⟨a, rfl, Or.inr ⟨rfl, le_refl _⟩, by simp⟩
  | cons r rest ih =>
    intro a hids hpw
    have hpw' : rest.Pairwise (fun x y => x.id < y.id) := hpw.of_cons
    have hrrest : ∀ x ∈ rest, r.id < x.id :=
      fun x hx => List.rel_of_pairwise_cons hpw hx
    simp only [List.foldl_cons, nextAcc]
    by_cases hlt : r.timestamp < a.timestamp
    · rw [if_pos hlt]
      obtain ⟨t, heq, hta, hall⟩ := ih r hrrest hpw'
      refine ⟨t, heq, ?_, ?_⟩
      · unfold taskLE at *
        omega
      · intro x hx
        rcases List.mem_cons.mp hx with hx | hx
        · exact hx ▸ hta
        · exact hall x hx
    · rw [if_neg hlt]
      obtain ⟨t, heq, hta, hall⟩ := ih a
        (fun x hx => hids x (by simp [hx])) hpw'
      refine ⟨t, heq, hta, ?_⟩
      intro x hx
      rcases List.mem_cons.mp hx with hx | hx
      · subst hx
        have har : taskLE a x := by
          have := hids x (by simp)
          unfold taskLE
          omega
        exact taskLE_trans t a x hta har
      · exact hall x hx

theorem lookasideLookup_skip (h : String) :
    ∀ (skipped rest : List (List HashRow)),
      (∀ s ∈ skipped,
        HashIdStore.get_hash_id s h = none ∨
          HashIdStore.get_hash_id s h = some 0) →
      lookasideLookup (skipped ++ rest) h = lookasideLookup rest h := by
  intro skipped
  induction skipped with
  | nil => intro rest _; rfl
  | cons s tail ih =>
    intro rest hall
    rcases hall s (by simp) with hs | hs <;>
      simp [lookasideLookup, hs,
        ih rest fun s' hs' => hall s' (by simp [hs'])]

/-! ## C10 -/

/-- C10: if every attached lookaside store maps the hash to 0 or lacks it,
`PackageStore.get_hash_id` falls through to the primary table's mapping
(the Python truthiness test `if id:` treats 0 like None). -/
theorem c10_zero_id_falls_through (db : PackageStore) (h : String)
    (hall : ∀ s ∈ db.hashIdStores,
      HashIdStore.get_hash_id s h = none ∨
        HashIdStore.get_hash_id s h = some 0) :
    PackageStore.get_hash_id db h = HashIdStore.get_hash_id db.hashTable h := by
  unfold PackageStore.get_hash_id
  rw [lookasideLookup_all_zero h db.hashIdStores hall]

/-- C10 witness: one lookaside mapping "h" to 0, primary mapping "h" to 7;
the lookup returns the primary's 7. -/
theorem c10_zero_id_falls_through_witness :
    PackageStore.get_hash_id
        { emptyStore with
          hashTable := [⟨7, "h"⟩], hashIdStores := [[⟨0, "h"⟩]] } "h" =
      some 7 := by
  have h := c10_zero_id_falls_through
    { emptyStore with hashTable := [⟨7, "h"⟩], hashIdStores := [[⟨0, "h"⟩]] }
    "h" (by intro s hs; simp at hs; subst hs; right; rfl)
  exact h.trans rfl

/-! ## C5 -/

/-- C5 counterexample: lookasides L1 = {"h" ↦ 0} (attached first) and
L2 = {"h" ↦ 5}, primary {"h" ↦ 9}.  The hash exists in L1, yet
`get_hash_id` returns L2's 5, not L1's 0: the claim that the first store
containing the hash always wins is false. -/
theorem c5_first_match_wins_counterexample :
    HashIdStore.get_hash_id [⟨0, "h"⟩] "h" = some 0 ∧
      PackageStore.get_hash_id
          { emptyStore with
            hashTable := [⟨9, "h"⟩],
            hashIdStores := [[⟨0, "h"⟩], [⟨5, "h"⟩]] } "h" =
        some 5 :=
  ⟨rfl, rfl⟩

/-- C5 amended: the first attached lookaside store whose lookup of the hash
yields a *nonzero* id wins — every earlier-attached store that maps the hash
to 0 or lacks it is passed over, even when attached first — and the primary
mapping is consulted only when every lookaside yields 0 or nothing. -/
theorem c5_first_nonzero_match_wins :
    (∀ (db : PackageStore) (skipped : List (List HashRow))
        (s : List HashRow) (rest : List (List HashRow)) (h : String)
        (i : Nat),
      db.hashIdStores = skipped ++ s :: rest →
      (∀ s' ∈ skipped,
        HashIdStore.get_hash_id s' h = none ∨
          HashIdStore.get_hash_id s' h = some 0) →
      HashIdStore.get_hash_id s h = some i → i ≠ 0 →
      PackageStore.get_hash_id db h = some i) ∧
    (∀ (db : PackageStore) (h : String),
      (∀ s ∈ db.hashIdStores,
        HashIdStore.get_hash_id s h = none ∨
          HashIdStore.get_hash_id s h = some 0) →
      PackageStore.get_hash_id db h =
        HashIdStore.get_hash_id db.hashTable h) := by
  constructor
  · intro db skipped s rest h i hs hskip hfind hnz
    unfold PackageStore.get_hash_id
    rw [hs, lookasideLookup_skip h skipped (s :: rest) hskip]
    simp [lookasideLookup, hfind, hnz]
  · intro db h hall
    unfold PackageStore.get_hash_id
    rw [lookasideLookup_all_zero h db.hashIdStores hall]

/-- C5 witness: lookasides L1 = {"h" ↦ 0} (attached first), L2 = {"x" ↦ 3}
(no entry for "h"), L3 = {"h" ↦ 5}, over primary {"h" ↦ 9}: L1's zero hit
and L2's miss are passed over and L3's nonzero 5 wins. -/
theorem c5_first_nonzero_match_wins_witness :
    PackageStore.get_hash_id
        { emptyStore with
          hashTable := [⟨9, "h"⟩],
          hashIdStores := [[⟨0, "h"⟩], [⟨3, "x"⟩], [⟨5, "h"⟩]] } "h" =
      some 5 :=
  c5_first_nonzero_match_wins.1
    { emptyStore with
      hashTable := [⟨9, "h"⟩],
      hashIdStores := [[⟨0, "h"⟩], [⟨3, "x"⟩], [⟨5, "h"⟩]] }
    [[⟨0, "h"⟩], [⟨3, "x"⟩]] [⟨5, "h"⟩] [] "h" 5 rfl
    (by
      intro s' hs'
      rcases List.mem_cons.mp hs' with h' | h'
      · subst h'; right; rfl
      · simp only [List.mem_singleton] at h'
        subst h'; left; rfl)
    rfl (by decide)

/-! ## C1 -/

/-- C1 counterexample: the store holds task id 1 in queue "a" and task id 2
in queue "b".  Clearing (conceptually queue "a") with except-set {1} also
deletes queue "b"'s task — `clear_tasks` has no queue parameter and its
DELETE carries no queue filter — contradicting the claim that tasks of other
queues are unaffected. -/
theorem c1_clear_tasks_counterexample :
    PackageStore.get_next_task
        { emptyStore with
          tasks := [⟨1, "a", 0, 0⟩, ⟨2, "b", 0, 0⟩], nextTaskId := 3 } "b" =
      some ⟨2, "b", 0, 0⟩ ∧
    (PackageStore.clear_tasks
        { emptyStore with
          tasks := [⟨1, "a", 0, 0⟩, ⟨2, "b", 0, 0⟩], nextTaskId := 3 }
        [1]).tasks = [⟨1, "a", 0, 0⟩] ∧
    PackageStore.get_next_task
        (PackageStore.clear_tasks
          { emptyStore with
            tasks := [⟨1, "a", 0, 0⟩, ⟨2, "b", 0, 0⟩], nextTaskId := 3 }
          [1]) "b" = none :=
  ⟨rfl, rfl, rfl⟩

/-- C1 amended: `clear_tasks` takes no queue argument; it deletes every task
of the store — whatever its queue — whose id is not in the except-set, and
keeps exactly the tasks whose ids are listed. -/
theorem c1_clear_tasks_keeps_exactly_excepted
    (db : PackageStore) (exceptIds : List Nat) (t : TaskRow) :
    t ∈ (PackageStore.clear_tasks db exceptIds).tasks ↔
      t ∈ db.tasks ∧ t.id ∈ exceptIds := by
  simp [PackageStore.clear_tasks, List.mem_filter]

/-! ## C4 -/

theorem get_next_task_remove (db : PackageStore) (tid : Nat) (q : String) :
    PackageStore.get_next_task (PackageStore.remove db tid) q =
      ((db.tasks.filter (fun t => t.queue == q)).filter
        (fun t => !(t.id == tid))).foldl nextAcc none := by
  show ((db.tasks.filter (fun t => !(t.id == tid))).filter
      (fun t => t.queue == q)).foldl nextAcc none = _
  rw [List.filter_comm]

/-- C4: FIFO dequeue order.  Part 1 (scenario): three tasks A, B, C enqueued
in order to queue `q` (with the nondecreasing wall-clock timestamps
`add_task` records) are returned as A, then — after A's removal — B, then C,
then absent; ties on timestamp are resolved by insertion order, since the
table scan feeding ORDER BY is in rowid order and the sort is stable.
Part 2 (general): whenever `get_next_task` returns a task, that task belongs
to the queried queue and is `taskLE`-minimal — smallest timestamp, ties by
smallest id — among the queue's undeleted tasks. -/
theorem c4_get_next_task_fifo :
    (∀ (db0 : PackageStore) (q : String) (ta tb tc da dbb dc : Nat),
      (∀ t ∈ db0.tasks, t.queue ≠ q) → ta ≤ tb → tb ≤ tc →
      PackageStore.get_next_task
          (PackageStore.add_task (PackageStore.add_task
            (PackageStore.add_task db0 q ta da).1 q tb dbb).1 q tc dc).1 q =
        some (PackageStore.add_task db0 q ta da).2 ∧
      PackageStore.get_next_task
          (PackageStore.remove
            (PackageStore.add_task (PackageStore.add_task
              (PackageStore.add_task db0 q ta da).1 q tb dbb).1 q tc dc).1
            (PackageStore.add_task db0 q ta da).2.id) q =
        some (PackageStore.add_task
          (PackageStore.add_task db0 q ta da).1 q tb dbb).2 ∧
      PackageStore.get_next_task
          (PackageStore.remove (PackageStore.remove
            (PackageStore.add_task (PackageStore.add_task
              (PackageStore.add_task db0 q ta da).1 q tb dbb).1 q tc dc).1
            (PackageStore.add_task db0 q ta da).2.id)
            (PackageStore.add_task
              (PackageStore.add_task db0 q ta da).1 q tb dbb).2.id) q =
        some (PackageStore.add_task (PackageStore.add_task
          (PackageStore.add_task db0 q ta da).1 q tb dbb).1 q tc dc).2 ∧
      PackageStore.get_next_task
          (PackageStore.remove (PackageStore.remove (PackageStore.remove
            (PackageStore.add_task (PackageStore.add_task
              (PackageStore.add_task db0 q ta da).1 q tb dbb).1 q tc dc).1
            (PackageStore.add_task db0 q ta da).2.id)
            (PackageStore.add_task
              (PackageStore.add_task db0 q ta da).1 q tb dbb).2.id)
            (PackageStore.add_task (PackageStore.add_task
              (PackageStore.add_task db0 q ta da).1 q tb dbb).1 q tc
              dc).2.id) q = none) ∧
    (∀ (db : PackageStore) (q : String) (t : TaskRow),
      db.tasks.Pairwise (fun x y => x.id < y.id) →
      PackageStore.get_next_task db q = some t →
      t ∈ db.tasks ∧ t.queue = q ∧
        ∀ u ∈ db.tasks, u.queue = q → taskLE t u) := by
  constructor
  · intro db0 q ta tb tc da dbb dc hq hab hbc
    have h0 : db0.tasks.filter (fun t => t.queue == q) = [] :=
      filter_queue_eq_nil q db0.tasks hq
    set n := db0.nextTaskId with hn
    have e1 : ((n + 1 : Nat) == n) = false := by
      rw [beq_eq_false_iff_ne]; omega
    have e2 : ((n + 2 : Nat) == n) = false := by
      rw [beq_eq_false_iff_ne]; omega
    have e3 : ((n + 2 : Nat) == n + 1) = false := by
      rw [beq_eq_false_iff_ne]; omega
    have hFnest : (db0.tasks ++ [(⟨n, q, ta, da⟩ : TaskRow)] ++
          [(⟨n + 1, q, tb, dbb⟩ : TaskRow)] ++
          [(⟨n + 2, q, tc, dc⟩ : TaskRow)]).filter
          (fun t => t.queue == q) =
        [⟨n, q, ta, da⟩, ⟨n + 1, q, tb, dbb⟩, ⟨n + 2, q, tc, dc⟩] := by
      simp [List.filter_append, h0]
    have hB : ([(⟨n, q, ta, da⟩ : TaskRow), ⟨n + 1, q, tb, dbb⟩,
          ⟨n + 2, q, tc, dc⟩] : List TaskRow).filter
          (fun t => !(t.id == n)) =
        [⟨n + 1, q, tb, dbb⟩, ⟨n + 2, q, tc, dc⟩] := by
      simp [e1, e2]
    have hC : ([(⟨n + 1, q, tb, dbb⟩ : TaskRow),
          ⟨n + 2, q, tc, dc⟩] : List TaskRow).filter
          (fun t => !(t.id == n + 1)) = [⟨n + 2, q, tc, dc⟩] := by
      simp [e3]
    have hD : ([(⟨n + 2, q, tc, dc⟩ : TaskRow)] : List TaskRow).filter
        (fun t => !(t.id == n + 2)) = [] := by
      simp
    have s2 : nextAcc (some (⟨n, q, ta, da⟩ : TaskRow))
        ⟨n + 1, q, tb, dbb⟩ = some ⟨n, q, ta, da⟩ := by
      show (if tb < ta then some (⟨n + 1, q, tb, dbb⟩ : TaskRow)
          else some ⟨n, q, ta, da⟩) = some ⟨n, q, ta, da⟩
      exact if_neg (by omega)
    have s3 : nextAcc (some (⟨n, q, ta, da⟩ : TaskRow))
        ⟨n + 2, q, tc, dc⟩ = some ⟨n, q, ta, da⟩ := by
      show (if tc < ta then some (⟨n + 2, q, tc, dc⟩ : TaskRow)
          else some ⟨n, q, ta, da⟩) = some ⟨n, q, ta, da⟩
      exact if_neg (by omega)
    have s4 : nextAcc (some (⟨n + 1, q, tb, dbb⟩ : TaskRow))
        ⟨n + 2, q, tc, dc⟩ = some ⟨n + 1, q, tb, dbb⟩ := by
      show (if tc < tb then some (⟨n + 2, q, tc, dc⟩ : TaskRow)
          else some ⟨n + 1, q, tb, dbb⟩) = some ⟨n + 1, q, tb, dbb⟩
      exact if_neg (by omega)
    refine ⟨?_, ?_, ?_, ?_⟩
    · show ((db0.tasks ++ [(⟨n, q, ta, da⟩ : TaskRow)] ++
          [(⟨n + 1, q, tb, dbb⟩ : TaskRow)] ++
          [(⟨n + 2, q, tc, dc⟩ : TaskRow)]).filter
          (fun t => t.queue == q)).foldl nextAcc none =
        some ⟨n, q, ta, da⟩
      rw [hFnest]
      calc List.foldl nextAcc none
            [(⟨n, q, ta, da⟩ : TaskRow), ⟨n + 1, q, tb, dbb⟩,
              ⟨n + 2, q, tc, dc⟩]
          = nextAcc (nextAcc (some ⟨n, q, ta, da⟩)
              ⟨n + 1, q, tb, dbb⟩) ⟨n + 2, q, tc, dc⟩ := rfl
        _ = nextAcc (some ⟨n, q, ta, da⟩) ⟨n + 2, q, tc, dc⟩ := by
              rw [s2]
        _ = some ⟨n, q, ta, da⟩ := s3
    · rw [get_next_task_remove]
      show (((db0.tasks ++ [(⟨n, q, ta, da⟩ : TaskRow)] ++
          [(⟨n + 1, q, tb, dbb⟩ : TaskRow)] ++
          [(⟨n + 2, q, tc, dc⟩ : TaskRow)]).filter
          (fun t => t.queue == q)).filter
          (fun t => !(t.id == n))).foldl nextAcc none =
        some ⟨n + 1, q, tb, dbb⟩
      rw [hFnest, hB]
      calc List.foldl nextAcc none
            [(⟨n + 1, q, tb, dbb⟩ : TaskRow), ⟨n + 2, q, tc, dc⟩]
          = nextAcc (some ⟨n + 1, q, tb, dbb⟩) ⟨n + 2, q, tc, dc⟩ := rfl
        _ = some ⟨n + 1, q, tb, dbb⟩ := s4
    · rw [get_next_task_remove]
      show ((((db0.tasks ++ [(⟨n, q, ta, da⟩ : TaskRow)] ++
          [(⟨n + 1, q, tb, dbb⟩ : TaskRow)] ++
          [(⟨n + 2, q, tc, dc⟩ : TaskRow)]).filter
          (fun t => !(t.id == n))).filter
          (fun t => t.queue == q)).filter
          (fun t => !(t.id == n + 1))).foldl nextAcc none =
        some ⟨n + 2, q, tc, dc⟩
      rw [List.filter_comm (fun (t : TaskRow) => t.queue == q)
        (fun (t : TaskRow) => !(t.id == n))]
      rw [hFnest, hB, hC]
      rfl
    · rw [get_next_task_remove]
      show (((((db0.tasks ++ [(⟨n, q, ta, da⟩ : TaskRow)] ++
          [(⟨n + 1, q, tb, dbb⟩ : TaskRow)] ++
          [(⟨n + 2, q, tc, dc⟩ : TaskRow)]).filter
          (fun t => !(t.id == n))).filter
          (fun t => !(t.id == n + 1))).filter
          (fun t => t.queue == q)).filter
          (fun t => !(t.id == n + 2))).foldl nextAcc none = none
      rw [List.filter_comm (fun (t : TaskRow) => t.queue == q)
        (fun (t : TaskRow) => !(t.id == n + 1))]
      rw [List.filter_comm (fun (t : TaskRow) => t.queue == q)
        (fun (t : TaskRow) => !(t.id == n))]
      rw [hFnest, hB, hC, hD]
      rfl
  · intro db q t hpw hnext
    have hpwl : (db.tasks.filter (fun x => x.queue == q)).Pairwise
        (fun x y => x.id < y.id) := hpw.filter _
    rcases hcase : db.tasks.filter (fun x => x.queue == q) with _ | ⟨x, xs⟩
    · exact absurd hnext (by
        show ¬((db.tasks.filter (fun x => x.queue == q)).foldl
          nextAcc none = some t)
        rw [hcase]
        simp)
    · rw [hcase] at hpwl
      have hfold : (db.tasks.filter (fun x => x.queue == q)).foldl
          nextAcc none = xs.foldl nextAcc (some x) := by
        rw [hcase]; rfl
      have hnext' : xs.foldl nextAcc (some x) = some t := by
        rw [← hfold]; exact hnext
      obtain ⟨t', heq, hta, hall⟩ := foldl_nextAcc_min xs x
        (fun r hr => List.rel_of_pairwise_cons hpwl hr) hpwl.of_cons
      have htt : t' = t := Option.some.inj (heq.symm.trans hnext')
      subst htt
      have hmem : t' ∈ db.tasks.filter (fun x => x.queue == q) := by
        rw [hcase]
        rcases foldl_nextAcc_mem xs x t' hnext' with h | h
        · simp [h]
        · simp [h]
      have hmem' := List.mem_filter.mp hmem
      refine ⟨hmem'.1, by simpa using hmem'.2, ?_⟩
      intro u hu huq
      have hul : u ∈ db.tasks.filter (fun x => x.queue == q) :=
        List.mem_filter.mpr ⟨hu, by simp [huq]⟩
      rw [hcase] at hul
      rcases List.mem_cons.mp hul with h | h
      · exact h ▸ hta
      · exact hall u h

/-- C4 witness: from the empty store, tasks with payloads 10, 11, 12 are
enqueued to "Q" at times 1, 1, 2 (the first two tie on timestamp); they come
back in insertion order and the queue is then empty. -/
theorem c4_get_next_task_fifo_witness :
    PackageStore.get_next_task
        (PackageStore.add_task (PackageStore.add_task
          (PackageStore.add_task emptyStore "Q" 1 10).1 "Q" 1 11).1
          "Q" 2 12).1 "Q" =
      some (PackageStore.add_task emptyStore "Q" 1 10).2 ∧
    PackageStore.get_next_task
        (PackageStore.remove
          (PackageStore.add_task (PackageStore.add_task
            (PackageStore.add_task emptyStore "Q" 1 10).1 "Q" 1 11).1
            "Q" 2 12).1
          (PackageStore.add_task emptyStore "Q" 1 10).2.id) "Q" =
      some (PackageStore.add_task
        (PackageStore.add_task emptyStore "Q" 1 10).1 "Q" 1 11).2 ∧
    PackageStore.get_next_task
        (PackageStore.remove (PackageStore.remove
          (PackageStore.add_task (PackageStore.add_task
            (PackageStore.add_task emptyStore "Q" 1 10).1 "Q" 1 11).1
            "Q" 2 12).1
          (PackageStore.add_task emptyStore "Q" 1 10).2.id)
          (PackageStore.add_task
            (PackageStore.add_task emptyStore "Q" 1 10).1 "Q" 1 11).2.id)
        "Q" =
      some (PackageStore.add_task (PackageStore.add_task
        (PackageStore.add_task emptyStore "Q" 1 10).1 "Q" 1 11).1
        "Q" 2 12).2 ∧
    PackageStore.get_next_task
        (PackageStore.remove (PackageStore.remove (PackageStore.remove
          (PackageStore.add_task (PackageStore.add_task
            (PackageStore.add_task emptyStore "Q" 1 10).1 "Q" 1 11).1
            "Q" 2 12).1
          (PackageStore.add_task emptyStore "Q" 1 10).2.id)
          (PackageStore.add_task
            (PackageStore.add_task emptyStore "Q" 1 10).1 "Q" 1 11).2.id)
          (PackageStore.add_task (PackageStore.add_task
            (PackageStore.add_task emptyStore "Q" 1 10).1 "Q" 1 11).1
            "Q" 2 12).2.id) "Q" = none :=
  c4_get_next_task_fifo.1 emptyStore "Q" 1 1 2 10 11 12
    (by intro t ht; simp [emptyStore] at ht) (le_refl 1) (by omega)

/-! ## C2 -/

theorem foldl_nextAcc_none_mem (l : List TaskRow) (t : TaskRow)
    (h : l.foldl nextAcc none = some t) : t ∈ l := by
  cases l with
  | nil => simp at h
  | cons x xs =>
    have h' : xs.foldl nextAcc (some x) = some t := h
    rcases foldl_nextAcc_mem xs x t h' with h'' | h''
    · simp [h'']
    · simp [h'']

theorem get_next_task_mem (db : PackageStore) (q : String) (t : TaskRow)
    (h : PackageStore.get_next_task db q = some t) : t ∈ db.tasks :=
  List.mem_of_mem_filter (foldl_nextAcc_none_mem _ t h)

theorem length_filter_ne_lt_of_mem :
    ∀ (l : List TaskRow) (t : TaskRow), t ∈ l →
      (l.filter (fun x => !(x.id == t.id))).length < l.length := by
  intro l t
  induction l with
  | nil => intro h; simp at h
  | cons a as ih =>
    intro h
    by_cases ha : (!(a.id == t.id)) = true
    · rcases List.mem_cons.mp h with h' | h'
      · rw [h'] at ha; simp at ha
      · rw [@List.filter_cons_of_pos TaskRow
          (fun x => !(x.id == t.id)) a as ha]
        simpa using Nat.succ_lt_succ (ih h')
    · rw [@List.filter_cons_of_neg TaskRow
        (fun x => !(x.id == t.id)) a as (by simpa using ha)]
      simpa using Nat.lt_succ_of_le (List.length_filter_le _ as)

theorem drainsTo_tasks_subset {ε : Type} (op : TaskRow → Except ε Unit)
    (q : String) :
    ∀ (pre : List TaskRow) (db db' : PackageStore),
      drainsTo op q db pre db' → ∀ r ∈ db'.tasks, r ∈ db.tasks := by
  intro pre
  induction pre with
  | nil =>
    intro db db' h r hr
    simp only [drainsTo] at h
    exact h ▸ hr
  | cons t rest ih =>
    intro db db' h r hr
    simp only [drainsTo] at h
    exact List.mem_of_mem_filter (ih (PackageStore.remove db t.id) db'
      h.2.2 r hr)

theorem drainsTo_removed {ε : Type} (op : TaskRow → Except ε Unit)
    (q : String) :
    ∀ (pre : List TaskRow) (db db' : PackageStore),
      drainsTo op q db pre db' →
      ∀ t ∈ pre, ∀ r ∈ db'.tasks, r.id ≠ t.id := by
  intro pre
  induction pre with
  | nil => intro db db' _ t ht; simp at ht
  | cons t0 rest ih =>
    intro db db' h t ht r hr
    simp only [drainsTo] at h
    rcases List.mem_cons.mp ht with h' | h'
    · subst h'
      have hr' := drainsTo_tasks_subset op q rest
        (PackageStore.remove db t.id) db' h.2.2 r hr
      have := (List.mem_filter.mp hr').2
      simpa using this
    · exact ih (PackageStore.remove db t0.id) db' h.2.2 t h' r hr

theorem handleTasksFuel_drain {ε : Type} (op : TaskRow → Except ε Unit)
    (q : String) (e : ε) (tf : TaskRow) :
    ∀ (pre : List TaskRow) (db db' : PackageStore) (fuel : Nat),
      drainsTo op q db pre db' →
      PackageStore.get_next_task db' q = some tf →
      op tf = .error e →
      db.tasks.length ≤ fuel →
      handleTasksFuel op q fuel db = (.error e, db', pre ++ [tf]) := by
  intro pre
  induction pre with
  | nil =>
    intro db db' fuel hdrain hnext hfail hfuel
    simp only [drainsTo] at hdrain
    subst hdrain
    have hmem := get_next_task_mem db q tf hnext
    have hpos : 0 < db.tasks.length := List.length_pos_of_mem hmem
    cases fuel with
    | zero => omega
    | succ f =>
      simp [handleTasksFuel, hnext, hfail]
  | cons t rest ih =>
    intro db db' fuel hdrain hnext hfail hfuel
    simp only [drainsTo] at hdrain
    obtain ⟨hn, hok, hrest⟩ := hdrain
    have htmem := get_next_task_mem db q t hn
    have hpos : 0 < db.tasks.length := List.length_pos_of_mem htmem
    cases fuel with
    | zero => omega
    | succ f =>
      have hlt : (PackageStore.remove db t.id).tasks.length <
          db.tasks.length := length_filter_ne_lt_of_mem db.tasks t htmem
      have hrec := ih (PackageStore.remove db t.id) db' f hrest hnext hfail
        (by omega)
      simp [handleTasksFuel, hn, hok, hrec]

/-- C2 (modelled from the spec, since taskhandler.py is not among the
sources): if the store drains successfully through the tasks of `pre` and
the per-task operation then fails on the next task `tf` of the queue, the
run returns exactly that failure; the run's final store is the one reached
just before the failure, so every task of `pre` stays removed while `tf` is
not removed — `get_next_task` still returns `tf` after the run — and the
tasks attempted are exactly `pre ++ [tf]`: nothing enqueued after the
failing task is attempted. -/
theorem c2_drain_stops_at_first_failure {ε : Type}
    (op : TaskRow → Except ε Unit) (q : String) (db db' : PackageStore)
    (pre : List TaskRow) (tf : TaskRow) (e : ε)
    (hdrain : drainsTo op q db pre db')
    (hnext : PackageStore.get_next_task db' q = some tf)
    (hfail : op tf = .error e) :
    handle_tasks op db q = (.error e, db', pre ++ [tf]) ∧
    PackageStore.get_next_task (handle_tasks op db q).2.1 q = some tf ∧
    ∀ t ∈ pre, ∀ r ∈ (handle_tasks op db q).2.1.tasks, r.id ≠ t.id := by
  have hmain : handle_tasks op db q = (.error e, db', pre ++ [tf]) :=
    handleTasksFuel_drain op q e tf pre db db' db.tasks.length hdrain hnext
      hfail (le_refl _)
  refine ⟨hmain, ?_, ?_⟩
  · rw [hmain]
    exact hnext
  · rw [hmain]
    exact drainsTo_removed op q pre db db' hdrain

/-- C2 witness: tasks with payloads 0, 1, 2 queued on "Q"; the operation
succeeds on payloads ≠ 1 and fails on payload 1.  The run consumes payload
0, fails surfacing the error, leaves payloads 1 and 2 in the store, and
`get_next_task` still returns the payload-1 task. -/
theorem c2_drain_stops_at_first_failure_witness :
    handle_tasks
        (fun t => if t.data == 1 then (.error () : Except Unit Unit)
          else .ok ())
        { emptyStore with
          tasks := [⟨1, "Q", 1, 0⟩, ⟨2, "Q", 2, 1⟩, ⟨3, "Q", 3, 2⟩],
          nextTaskId := 4 } "Q" =
      (.error (),
        { emptyStore with
          tasks := [⟨2, "Q", 2, 1⟩, ⟨3, "Q", 3, 2⟩], nextTaskId := 4 },
        [⟨1, "Q", 1, 0⟩, ⟨2, "Q", 2, 1⟩]) ∧
    PackageStore.get_next_task
        (handle_tasks
          (fun t => if t.data == 1 then (.error () : Except Unit Unit)
            else .ok ())
          { emptyStore with
            tasks := [⟨1, "Q", 1, 0⟩, ⟨2, "Q", 2, 1⟩, ⟨3, "Q", 3, 2⟩],
            nextTaskId := 4 } "Q").2.1 "Q" = some ⟨2, "Q", 2, 1⟩ := by
  have h := c2_drain_stops_at_first_failure
    (fun t => if t.data == 1 then (.error () : Except Unit Unit)
      else .ok ())
    "Q"
    { emptyStore with
      tasks := [⟨1, "Q", 1, 0⟩, ⟨2, "Q", 2, 1⟩, ⟨3, "Q", 3, 2⟩],
      nextTaskId := 4 }
    { emptyStore with
      tasks := [⟨2, "Q", 2, 1⟩, ⟨3, "Q", 3, 2⟩], nextTaskId := 4 }
    [⟨1, "Q", 1, 0⟩] ⟨2, "Q", 2, 1⟩ ()
    ⟨rfl, rfl, rfl⟩ rfl rfl
  exact ⟨h.1, h.2.1⟩

/-! ## C3 -/

/-- C3 (code bug): on a store holding one hash-id request, consuming the
generator returned by `iter_hash_id_requests` raises
`sqlite3.ProgrammingError` instead of yielding one handle per request:
`with_cursor` closes the cursor (and commits) before any of the generator's
body has run, so the deferred `cursor.execute` operates on a closed
cursor. -/
theorem c3_iter_hash_id_requests_raises :
    iter_hash_id_requests { emptyStore with hashIdRequests := [⟨1⟩] } () =
      .error .programmingError :=
  rfl

/-! ## C6 -/

/-- C6 counterexample: a wellformed SQLite database with *no* "hash" table is
not a valid hash=>id store of the expected schema (the spec's
`checkIntegrity` lists a missing table as invalid), yet `add_hash_id_db`
does not raise: opening the file runs `ensure_hash_id_schema`, which creates
the missing table, and `check_sanity` then passes. -/
theorem c6_invalid_raises_counterexample :
    isValidHashIdDbFile ⟨true, .absent⟩ = false ∧
      (PackageStore.add_hash_id_db emptyStore ⟨true, .absent⟩).1 =
        .ok () :=
  ⟨rfl, rfl⟩

/-- C6 amended: for every file that is not wellformed SQLite, or whose
"hash" table has an incompatible schema, `add_hash_id_db` raises
`InvalidHashIdDb` and leaves both the store (in particular the attached
lookaside list, hence `has_hash_id_db`) and the file unchanged.  (A
wellformed database merely *missing* the table is instead silently upgraded
and attached.) -/
theorem c6_invalid_db_raises_and_preserves (db : PackageStore) (f : DbFile)
    (hf : f.wellformed = false ∨ f.hashTable = .incompatible) :
    PackageStore.add_hash_id_db db f = (.error .invalidHashIdDb, db, f) ∧
      PackageStore.has_hash_id_db
          (PackageStore.add_hash_id_db db f).2.1 =
        PackageStore.has_hash_id_db db := by
  obtain ⟨wf, ht⟩ := f
  have hres : PackageStore.add_hash_id_db db ⟨wf, ht⟩ =
      (.error .invalidHashIdDb, db, ⟨wf, ht⟩) := by
    rcases hf with h | h
    · simp only at h
      subst h
      simp [PackageStore.add_hash_id_db, ensure_hash_id_schema, check_sanity]
    · simp only at h
      subst h
      cases wf <;>
        simp [PackageStore.add_hash_id_db, ensure_hash_id_schema,
          check_sanity]
  exact ⟨hres, by rw [hres]⟩

/-- C6 witness: attaching the corrupt file (the "junk" file of the tests) to
a store with no prior attachment raises and leaves `has_hash_id_db` false. -/
theorem c6_invalid_db_raises_and_preserves_witness :
    PackageStore.add_hash_id_db emptyStore ⟨false, .absent⟩ =
        (.error .invalidHashIdDb, emptyStore, ⟨false, .absent⟩) ∧
      PackageStore.has_hash_id_db
          (PackageStore.add_hash_id_db emptyStore ⟨false, .absent⟩).2.1 =
        false := by
  have h := c6_invalid_db_raises_and_preserves emptyStore ⟨false, .absent⟩
    (Or.inl rfl)
  exact ⟨h.1, h.2.trans rfl⟩

/-! ## C9 -/

/-- C9 counterexample: attaching a wellformed database that lacks the "hash"
table modifies the file — `HashIdStore.__init__` runs
`ensure_hash_id_schema`, which creates (and commits) the missing table — so
attachment does not leave every lookaside file's tables unchanged. -/
theorem c9_lookaside_readonly_counterexample :
    (PackageStore.add_hash_id_db emptyStore ⟨true, .absent⟩).2.2 ≠
      ⟨true, .absent⟩ := by
  decide

/-- C9 amended: for every lookaside file that already contains a "hash"
table (in particular every valid store) — and for every file that is not
wellformed SQLite — attaching it leaves the file's tables and rows
unchanged; reads through `get_hash_id` are SELECT-only and never modify it
(lookaside reads are modelled as pure functions of the file's rows).  Only a
wellformed database missing the table is modified (it gains an empty "hash"
table). -/
theorem c9_lookaside_file_unchanged (db : PackageStore) (f : DbFile)
    (hf : f.wellformed = true → f.hashTable ≠ .absent) :
    (PackageStore.add_hash_id_db db f).2.2 = f := by
  obtain ⟨wf, ht⟩ := f
  cases wf with
  | false =>
    cases ht <;>
      simp [PackageStore.add_hash_id_db, ensure_hash_id_schema, check_sanity]
  | true =>
    cases ht with
    | absent => exact absurd (hf rfl) (by simp)
    | compatible rows =>
      simp [PackageStore.add_hash_id_db, ensure_hash_id_schema, check_sanity]
    | incompatible =>
      simp [PackageStore.add_hash_id_db, ensure_hash_id_schema, check_sanity]

/-- C9 witness: attaching a valid store holding one row leaves the file
exactly as it was. -/
theorem c9_lookaside_file_unchanged_witness :
    (PackageStore.add_hash_id_db emptyStore
        ⟨true, .compatible [⟨3, "x"⟩]⟩).2.2 =
      ⟨true, .compatible [⟨3, "x"⟩]⟩ :=
  c9_lookaside_file_unchanged emptyStore ⟨true, .compatible [⟨3, "x"⟩]⟩
    (fun _ => by decide)

/-! ## C7 -/

theorem set_hash_ids_body_error {ε : Type}
    (exec : String → Nat → Except ε Unit) :
    ∀ (pairs : List (String × Nat)) (t : List HashRow),
      (∃ p ∈ pairs, ∃ e, exec p.1 p.2 = .error e) →
      ∃ e, set_hash_ids_body exec pairs t = .error e := by
  intro pairs
  induction pairs with
  | nil => intro t h; simp at h
  | cons p rest ih =>
    obtain ⟨ph, pi⟩ := p
    intro t h
    cases hx : exec ph pi with
    | error e => exact ⟨e, by simp [set_hash_ids_body, hx]⟩
    | ok u =>
      obtain ⟨p', hp', e, he⟩ := h
      rcases List.mem_cons.mp hp' with h' | h'
      · subst h'
        rw [hx] at he
        exact absurd he (by simp)
      · obtain ⟨e', he'⟩ := ih (HashIdStore.replaceHash t pi ph)
          ⟨p', h', e, he⟩
        exact ⟨e', by simp [set_hash_ids_body, hx, he']⟩

theorem set_hash_ids_body_ok {ε : Type}
    (exec : String → Nat → Except ε Unit) :
    ∀ (pairs : List (String × Nat)) (t : List HashRow),
      (∀ p ∈ pairs, exec p.1 p.2 = .ok ()) →
      set_hash_ids_body exec pairs t =
        .ok ((), HashIdStore.set_hash_ids t pairs) := by
  intro pairs
  induction pairs with
  | nil => intro t _; simp [set_hash_ids_body, HashIdStore.set_hash_ids]
  | cons p rest ih =>
    obtain ⟨ph, pi⟩ := p
    intro t h
    have hx : exec ph pi = .ok () := h (ph, pi) (by simp)
    have hrest := ih (HashIdStore.replaceHash t pi ph)
      (fun p' hp' => h p' (by simp [hp']))
    simp [set_hash_ids_body, hx, hrest, HashIdStore.set_hash_ids]

/-- C7: the `with_cursor` wrapper makes every mutating operation
transactional — an operation that returns normally has its new state
committed, and one that raises has the state at entry restored (rollback)
before the error propagates; in particular a `set_hash_ids` whose REPLACE
fails on any of its pairs leaves the table exactly as it was (none of the
batch's pairs persist), while a fully successful one commits exactly the
pure batched update. -/
theorem c7_with_cursor_transactional :
    (∀ (σ α ε : Type) (method : σ → Except ε (α × σ)) (db : σ) (e : ε),
      method db = .error e → with_cursor method db = (.error e, db)) ∧
    (∀ (σ α ε : Type) (method : σ → Except ε (α × σ)) (db : σ) (a : α)
        (db' : σ),
      method db = .ok (a, db') → with_cursor method db = (.ok a, db')) ∧
    (∀ (ε : Type) (exec : String → Nat → Except ε Unit)
        (pairs : List (String × Nat)) (t : List HashRow),
      (∃ p ∈ pairs, ∃ e, exec p.1 p.2 = .error e) →
      ∃ e, set_hash_ids_tx exec pairs t = (.error e, t)) ∧
    (∀ (ε : Type) (exec : String → Nat → Except ε Unit)
        (pairs : List (String × Nat)) (t : List HashRow),
      (∀ p ∈ pairs, exec p.1 p.2 = .ok ()) →
      set_hash_ids_tx exec pairs t =
        (.ok (), HashIdStore.set_hash_ids t pairs)) := by
  refine ⟨?_, ?_, ?_, ?_⟩
  · intro σ α ε method db e hm
    simp [with_cursor, hm]
  · intro σ α ε method db a db' hm
    simp [with_cursor, hm]
  · intro ε exec pairs t h
    obtain ⟨e, he⟩ := set_hash_ids_body_error exec pairs t h
    exact ⟨e, by simp [set_hash_ids_tx, with_cursor, he]⟩
  · intro ε exec pairs t h
    simp [set_hash_ids_tx, with_cursor, set_hash_ids_body_ok exec pairs t h]

/-- C7 witness: a batch whose second REPLACE raises commits nothing — the
table is exactly as before — while an all-successful batch commits the whole
update. -/
theorem c7_with_cursor_transactional_witness :
    set_hash_ids_tx
        (fun h _ => if h == "bad" then (.error () : Except Unit Unit)
          else .ok ())
        [("good", 1), ("bad", 2)] [] = (.error (), []) ∧
    set_hash_ids_tx (fun _ _ => (.ok () : Except Unit Unit))
        [("good", 1)] [] = (.ok (), [⟨1, "good"⟩]) := by
  constructor
  · obtain ⟨e, he⟩ := c7_with_cursor_transactional.2.2.1 Unit
      (fun h _ => if h == "bad" then (.error () : Except Unit Unit)
        else .ok ())
      [("good", 1), ("bad", 2)] []
      ⟨("bad", 2), by simp, (), by simp⟩
    exact he
  · exact c7_with_cursor_transactional.2.2.2 Unit
      (fun _ _ => (.ok () : Except Unit Unit)) [("good", 1)] []
      (fun p _ => rfl)

/-! ## C8 -/

theorem find?_unique {α : Type} (p : α → Bool) (x : α) :
    ∀ l : List α, x ∈ l → p x = true → (∀ r ∈ l, p r = true → r = x) →
      l.find? p = some x := by
  intro l
  induction l with
  | nil => intro hx; simp at hx
  | cons a as ih =>
    intro hx hpx hall
    by_cases hpa : p a = true
    · rw [List.find?_cons_of_pos as hpa]
      rw [hall a (by simp) hpa]
    · rw [List.find?_cons_of_neg as hpa]
      rcases List.mem_cons.mp hx with h' | h'
      · subst h'; exact absurd hpx hpa
      · exact ih h' hpx (fun r hr => hall r (by simp [hr]))

theorem holdsPair_get (t : List HashRow) (h : String) (i : Nat)
    (hp : holdsPair t h i) :
    HashIdStore.get_hash_id t h = some i ∧
      HashIdStore.get_id_hash t i = some h := by
  obtain ⟨hmem, hall⟩ := hp
  constructor
  · have hfind : t.find? (fun r => r.hash == h) = some ⟨i, h⟩ :=
      find?_unique _ _ t hmem (by simp)
        (fun r hr hpr => (hall r hr).1 (by simpa using hpr))
    simp [HashIdStore.get_hash_id, hfind]
  · have hfind : t.find? (fun r => r.id == i) = some ⟨i, h⟩ :=
      find?_unique _ _ t hmem (by simp)
        (fun r hr hpr => (hall r hr).2 (by simpa using hpr))
    simp [HashIdStore.get_id_hash, hfind]

theorem holdsPair_replace_self (t : List HashRow) (h : String) (i : Nat) :
    holdsPair (HashIdStore.replaceHash t i h) h i := by
  constructor
  · simp [HashIdStore.replaceHash]
  · intro r hr
    rcases List.mem_append.mp hr with hr | hr
    · have hflt := (List.mem_filter.mp hr).2
      simp only [Bool.and_eq_true, Bool.not_eq_true', beq_eq_false_iff_ne,
        ne_eq] at hflt
      exact ⟨fun hh => absurd hh hflt.2, fun hi => absurd hi hflt.1⟩
    · simp only [List.mem_singleton] at hr
      subst hr
      exact ⟨fun _ => rfl, fun _ => rfl⟩

theorem holdsPair_replace_other (t : List HashRow) (h : String) (i : Nat)
    (h' : String) (i' : Nat) (hh : h' ≠ h) (hi : i' ≠ i)
    (hp : holdsPair t h i) :
    holdsPair (HashIdStore.replaceHash t i' h') h i := by
  obtain ⟨hmem, hall⟩ := hp
  constructor
  · apply List.mem_append.mpr
    left
    apply List.mem_filter.mpr
    refine ⟨hmem, ?_⟩
    simp only [Bool.and_eq_true, Bool.not_eq_true', beq_eq_false_iff_ne,
      ne_eq]
    exact ⟨fun hcon => hi (by simp [hcon]), fun hcon => hh (by simp [hcon])⟩
  · intro r hr
    rcases List.mem_append.mp hr with hr | hr
    · exact hall r (List.mem_filter.mp hr).1
    · simp only [List.mem_singleton] at hr
      subst hr
      exact ⟨fun hcon => absurd hcon hh, fun hcon => absurd hcon hi⟩

theorem holdsPair_set_other (h : String) (i : Nat) :
    ∀ (pairs : List (String × Nat)) (t : List HashRow),
      (∀ p ∈ pairs, p.1 ≠ h ∧ p.2 ≠ i) → holdsPair t h i →
      holdsPair (HashIdStore.set_hash_ids t pairs) h i := by
  intro pairs
  induction pairs with
  | nil => intro t _ hp; simpa [HashIdStore.set_hash_ids] using hp
  | cons p rest ih =>
    intro t hc hp
    have hstep := holdsPair_replace_other t h i p.1 p.2
      (hc p (by simp)).1 (hc p (by simp)).2 hp
    have : HashIdStore.set_hash_ids t (p :: rest) =
        HashIdStore.set_hash_ids (HashIdStore.replaceHash t p.2 p.1) rest :=
      rfl
    rw [this]
    exact ih (HashIdStore.replaceHash t p.2 p.1)
      (fun p' hp' => hc p' (by simp [hp'])) hstep

/-- C8 counterexample: the dict {"h1" ↦ 5, "h2" ↦ 5} maps two hashes to the
same id; the second REPLACE evicts the first pair's row (id conflict), so
right after the call `get_hash_id "h1"` is already None and
`get_id_hash 5` is "h2" — the claimed round-trip fails for the inserted
pair ("h1", 5) without any later call having overwritten it. -/
theorem c8_round_trip_counterexample :
    HashIdStore.get_hash_id
        (HashIdStore.set_hash_ids [] [("h1", 5), ("h2", 5)]) "h1" = none ∧
      HashIdStore.get_id_hash
        (HashIdStore.set_hash_ids [] [("h1", 5), ("h2", 5)]) 5 =
        some "h2" :=
  ⟨rfl, rfl⟩

/-- C8 amended: for every batch whose ids are pairwise distinct (its hashes
are distinct automatically, being dict keys), each inserted pair round-trips
— `get_hash_id hash = id` and `get_id_hash id = hash` — right after
`set_hash_ids`, this keeps holding across any later `set_hash_ids` whose
pairs touch neither the pair's hash nor its id, and `clear_hash_ids` removes
it.  (A batch mapping two hashes to one id breaks the round-trip for the
evicted pair, which is what the counterexample exhibits.) -/
theorem c8_round_trip (t : List HashRow) (pairs : List (String × Nat))
    (h : String) (i : Nat) (hmem : (h, i) ∈ pairs)
    (hhash : (pairs.map Prod.fst).Nodup)
    (hid : (pairs.map Prod.snd).Nodup) :
    (HashIdStore.get_hash_id (HashIdStore.set_hash_ids t pairs) h =
        some i ∧
      HashIdStore.get_id_hash (HashIdStore.set_hash_ids t pairs) i =
        some h) ∧
    (∀ pairs2 : List (String × Nat),
      (∀ p ∈ pairs2, p.1 ≠ h ∧ p.2 ≠ i) →
      HashIdStore.get_hash_id
          (HashIdStore.set_hash_ids
            (HashIdStore.set_hash_ids t pairs) pairs2) h = some i ∧
        HashIdStore.get_id_hash
          (HashIdStore.set_hash_ids
            (HashIdStore.set_hash_ids t pairs) pairs2) i = some h) ∧
    HashIdStore.get_hash_id
      (HashIdStore.clear_hash_ids (HashIdStore.set_hash_ids t pairs)) h =
      none := by
  obtain ⟨l1, l2, rfl⟩ := List.append_of_mem hmem
  have hh0 : h ∉ l2.map Prod.fst := by
    rw [List.map_append] at hhash
    have := hhash.of_append_right
    rw [List.map_cons] at this
    exact (List.nodup_cons.mp this).1
  have hi0 : i ∉ l2.map Prod.snd := by
    rw [List.map_append] at hid
    have := hid.of_append_right
    rw [List.map_cons] at this
    exact (List.nodup_cons.mp this).1
  have hc2 : ∀ p ∈ l2, p.1 ≠ h ∧ p.2 ≠ i := by
    intro p hp
    constructor
    · intro hcon
      exact hh0 (hcon ▸ List.mem_map_of_mem Prod.fst hp)
    · intro hcon
      exact hi0 (hcon ▸ List.mem_map_of_mem Prod.snd hp)
  have hsplit : HashIdStore.set_hash_ids t (l1 ++ (h, i) :: l2) =
      HashIdStore.set_hash_ids
        (HashIdStore.replaceHash (HashIdStore.set_hash_ids t l1) i h) l2 := by
    simp [HashIdStore.set_hash_ids, List.foldl_append]
  have hp : holdsPair (HashIdStore.set_hash_ids t (l1 ++ (h, i) :: l2)) h
      i := by
    rw [hsplit]
    exact holdsPair_set_other h i l2 _ hc2
      (holdsPair_replace_self (HashIdStore.set_hash_ids t l1) h i)
  refine ⟨holdsPair_get _ h i hp, ?_, rfl⟩
  intro pairs2 hc3
  exact holdsPair_get _ h i (holdsPair_set_other h i pairs2 _ hc3 hp)

/-- C8 witness: inserting {"h1" ↦ 5, "h2" ↦ 6} into the empty table, the
pair ("h2", 6) round-trips, survives a later batch {"h3" ↦ 7}, and is gone
after `clear_hash_ids`. -/
theorem c8_round_trip_witness :
    HashIdStore.get_hash_id
        (HashIdStore.set_hash_ids [] [("h1", 5), ("h2", 6)]) "h2" =
      some 6 ∧
    HashIdStore.get_id_hash
        (HashIdStore.set_hash_ids [] [("h1", 5), ("h2", 6)]) 6 =
      some "h2" ∧
    HashIdStore.get_hash_id
        (HashIdStore.set_hash_ids
          (HashIdStore.set_hash_ids [] [("h1", 5), ("h2", 6)])
          [("h3", 7)]) "h2" = some 6 ∧
    HashIdStore.get_hash_id
        (HashIdStore.clear_hash_ids
          (HashIdStore.set_hash_ids [] [("h1", 5), ("h2", 6)])) "h2" =
      none := by
  have hthm := c8_round_trip [] [("h1", 5), ("h2", 6)] "h2" 6
    (by simp) (by simp) (by simp)
  exact ⟨hthm.1.1, hthm.1.2, (hthm.2.1 [("h3", 7)] (by decide)).1,
    hthm.2.2⟩

end Landscape
